import Mathlib

/-!
Verification of the netdisco-rust core against its specification.

Shallow embedding of the relevant source functions:
* `src/snmp/client.rs` — BER parsing helpers, OID encode/decode, numeric
  decoders (`parse_integer`, `parse_timeticks`), and the subtree `walk`;
* `src/worker/discover.rs` — layer-bitstring derivation from sysServices;
* `src/models/device.rs` — `Device::has_layer` / `is_switch` / `is_router`;
* `src/util/permission.rs` — ACL matching and `is_permitted`;
* `src/db/queries.rs` — the job queue operations as a state machine;
* `src/backend/scheduler.rs` — the once-per-minute scheduling rules.

Bytes are modelled as `Nat` (the Rust domain is `u8`, so theorems about byte
input carry a `< 256` hypothesis where values matter).  Machine-integer
truncation (`as u8`, `u32` shifts) is made explicit with `% 256` / `% 2^32`.
-/

/-! ## Numeric value decoders (src/snmp/client.rs, parse_integer / parse_timeticks)

`parse_integer` decodes 1/2/4/8-byte big-endian two's-complement integers
(`i8`/`i16`/`i32`/`i64::from_be_bytes`); any other length yields `None`.
`twosComp w n` is the signed reinterpretation of the `w`-bit unsigned value
`n`, i.e. exactly what `iN::from_be_bytes` computes on the assembled bytes. -/

def twosComp (w : Nat) (n : Nat) : Int :=
  if n < 2 ^ (w - 1) then (n : Int) else (n : Int) - 2 ^ w

/-- Big-endian value of a byte string (each byte < 256 in the Rust domain). -/
def beVal (data : List Nat) : Nat :=
  data.foldl (fun a b => a * 256 + b) 0

/-- From `parse_integer` in src/snmp/client.rs (match on `data.len()`;
`data[0] as i8 as i64`, `i16/i32/i64::from_be_bytes`). -/
def parse_integer (data : List Nat) : Option Int :=
  match data with
  | [b0] => some (twosComp 8 b0)
  | [b0, b1] => some (twosComp 16 (b0 * 256 + b1))
  | [b0, b1, b2, b3] => some (twosComp 32 (((b0 * 256 + b1) * 256 + b2) * 256 + b3))
  | [b0, b1, b2, b3, b4, b5, b6, b7] =>
      some (twosComp 64 (((((((b0 * 256 + b1) * 256 + b2) * 256 + b3) * 256 + b4)
        * 256 + b5) * 256 + b6) * 256 + b7))
  | _ => none

/-- From `parse_timeticks` in src/snmp/client.rs: a 4-byte value decodes as
unsigned `u32::from_be_bytes`; any other length falls back to `parse_integer`. -/
def parse_timeticks (data : List Nat) : Option Int :=
  match data with
  | [b0, b1, b2, b3] => some ((((b0 * 256 + b1) * 256 + b2) * 256 + b3 : Nat) : Int)
  | _ => parse_integer data

/-! ## Layer bitstring (src/worker/discover.rs lines 38-41) and
`Device::has_layer` (src/models/device.rs lines 82-104).

Only the `layers` field of the Rust `Device` struct is relevant to layer
queries (`has_layer` reads nothing else); the other columns are plain data
carried to the database. -/

/-- From `discover_device`: `(0..7).map(|i| if svc & (1 << i) != 0 {'1'} else {'0'})`.
`svc` is the `i64` sysServices value (non-negative in the MIB, hence `Nat`);
`svc & (1 << i) != 0` is `Nat.testBit svc i`. -/
def layersOfServices (svc : Nat) : List Char :=
  (List.range 7).map (fun i => if svc.testBit i then '1' else '0')

/-- The `layers` column of the `device` table (7-character '0'/'1' string). -/
structure Device where
  layers : Option (List Char)

/-- From `Device::has_layer`: layers are 1-indexed, out of range is false,
otherwise read character `(7 - layer)` of the stored bitstring. -/
def Device.has_layer (d : Device) (layer : Nat) : Bool :=
  if layer == 0 || layer > 7 then false
  else
    match d.layers with
    | some l =>
        match l.get? (7 - layer) with
        | some c => c == '1'
        | none => false
    | none => false

/-- From `Device::is_switch`. -/
def Device.is_switch (d : Device) : Bool := d.has_layer 2

/-- From `Device::is_router`. -/
def Device.is_router (d : Device) : Bool := d.has_layer 3

/-! ## ACL permission checks (src/util/permission.rs).

Source entries are strings; the recognized forms are the universal wildcard
tokens (`"group:__ANY__"`, `"0.0.0.0/0"`, `"::/0"`), a parseable CIDR block,
and an exact IP (which the source matches both via `parse::<IpNetwork>()`
with `contains` and via string equality — same outcome).  Entries are
modelled by that classification; IPv4 addresses by their 32-bit value. -/

inductive AclEntry where
  | wildcard
  | net (addr : Nat) (pfx : Nat)
  | exact (addr : Nat)
deriving DecidableEq

/-- `IpNetwork::contains`: the first `pfx` bits of the address agree. -/
def netContains (addr pfx ip : Nat) : Bool :=
  ip / 2 ^ (32 - pfx) == addr / 2 ^ (32 - pfx)

/-- From `acl_matches`: first match wins (wildcard, CIDR containment, exact IP). -/
def acl_matches (ip : Nat) (acl : List AclEntry) : Bool :=
  acl.any (fun e =>
    match e with
    | .wildcard => true
    | .net a p => netContains a p ip
    | .exact a => ip == a)

/-- From `acl_matches_only`: empty "only" list means all allowed. -/
def acl_matches_only (ip : Nat) (only : List AclEntry) : Bool :=
  if only.isEmpty then true else acl_matches ip only

/-- From `acl_matches_no`: empty "no" list matches nothing. -/
def acl_matches_no (ip : Nat) (no : List AclEntry) : Bool :=
  if no.isEmpty then false else acl_matches ip no

/-- From `is_permitted`: deny list wins, then the allow list is consulted. -/
def is_permitted (ip : Nat) (only : List AclEntry) (no : List AclEntry) : Bool :=
  if acl_matches_no ip no then false else acl_matches_only ip only

/-! ## SNMP subtree walk (src/snmp/client.rs, `SnmpClient::walk`).

A responder models the device: it answers the k-th `get_next` call with
either an error (transport/decode failure) or a `(next_oid, value)` pair.
`walkAux` is the walk loop with explicit fuel: `none` means the loop has not
stopped within the given number of `get_next` calls, `some r` means the loop
exited with result `r` (faithfully an `Except`, as the Rust function returns
`Result`). -/

/-- Answers each `get_next` call; the error payload is irrelevant. -/
def Responder := Nat → Except Unit (List Nat × List Nat)

/-- Rust `Vec<u32>` ordering (`next_oid <= current_oid`): lexicographic,
a proper prefix is smaller. -/
def lexLe : List Nat → List Nat → Bool
  | [], _ => true
  | _ :: _, [] => false
  | a :: as, b :: bs => decide (a < b) || (a == b && lexLe as bs)

/-- The walk loop of `SnmpClient::walk`: stop on error, empty OID,
OID outside the `base` subtree, or non-advancing OID; otherwise record the
pair and continue from the returned OID. -/
def walkAux (r : Responder) (base : List Nat) :
    Nat → Nat → List Nat → List (List Nat × List Nat) →
    Option (Except Unit (List (List Nat × List Nat)))
  | 0, _, _, _ => none
  | fuel + 1, k, current, acc =>
    match r k with
    | .error _ => some (.ok acc)
    | .ok (next, value) =>
      if next.isEmpty || !(List.isPrefixOf base next) then some (.ok acc)
      else if lexLe next current then some (.ok acc)
      else walkAux r base fuel (k + 1) next (acc ++ [(next, value)])

/-- `SnmpClient::walk` from the initial state (`current_oid = base_oid`,
no results, first `get_next` call). -/
def snmp_walk (r : Responder) (base : List Nat) (fuel : Nat) :
    Option (Except Unit (List (List Nat × List Nat))) :=
  walkAux r base fuel 0 base []

/-- A misbehaving (but protocol-shaped) agent: every answer extends the
previous OID by one arc, so it stays inside the subtree and strictly
increases forever. -/
def growResponder (base : List Nat) : Responder :=
  fun k => .ok (base ++ List.replicate (k + 1) 1, [])

/-- The k-th `get_next` answer triggers an unconditional stop of the walk:
an exchange error, an empty OID, or an OID outside the base subtree. -/
def stopAnswer (r : Responder) (base : List Nat) (k : Nat) : Prop :=
  match r k with
  | .error _ => True
  | .ok (next, _) => next.isEmpty = true ∨ List.isPrefixOf base next = false

/-- Spec mock (a): the agent answers with a non-advancing OID from the
second call on. -/
def mockNonAdvancing : Responder :=
  fun _ => .ok ([1, 3, 6, 1], [7])

/-- Spec mock (b): the second answer leaves the subtree. -/
def mockOutside : Responder :=
  fun k => if k == 0 then .ok ([1, 3, 6, 1], [7]) else .ok ([9, 9], [8])

/-- Spec mock (c): the third call errors. -/
def mockErrThird : Responder :=
  fun k =>
    if k == 0 then .ok ([1, 3, 6, 1], [7])
    else if k == 1 then .ok ([1, 3, 6, 2], [8])
    else .error ()

/-! ## Scheduler rules (src/backend/scheduler.rs, `run_scheduler`).

The loop ticks once per minute; each tick reads the wall clock and fires
independent rules.  A tick is modelled by its absolute minute count `t`
(so `t % 60` is the minute-of-hour and `t / 60 % 24` the hour-of-day). -/

/-- Rule for discoverall: 7:05 AM daily. -/
def discoverall_due (t : Nat) : Bool := t / 60 % 24 == 7 && t % 60 == 5

/-- Rule for macwalk: minute 0, 20 or 40 of each hour. -/
def macwalk_due (t : Nat) : Bool := t % 60 == 20 || t % 60 == 40 || t % 60 == 0

/-- Rule for arpwalk: `minute == 50` (commented "every 50 minutes" in the source). -/
def arpwalk_due (t : Nat) : Bool := t % 60 == 50

/-- Rule for nbtwalk: minute 0 of hours 8, 13, 21. -/
def nbtwalk_due (t : Nat) : Bool :=
  t % 60 == 0 && (t / 60 % 24 == 8 || t / 60 % 24 == 13 || t / 60 % 24 == 21)

/-- Rule for expire: 23:30 daily. -/
def expire_due (t : Nat) : Bool := t / 60 % 24 == 23 && t % 60 == 30

/-! ## Job queue (src/db/queries.rs, enqueue_job / dequeue_job / complete_job).

The `admin` table is a list of rows; timestamps are abstract `Nat` clock
values supplied by the caller (`NOW()`), job ids by the DB sequence. -/

inductive JobStatus where
  | queued
  | running
  | done
  | error
  | deferred
deriving DecidableEq

structure JobRow where
  job : Nat
  action : String
  status : JobStatus
  entered : Nat
  started : Option Nat
  finished : Option Nat
  log : Option String
deriving DecidableEq

/-- `INSERT ... VALUES (..., 'queued', NOW())`: a fresh row with status
queued and no started/finished timestamps. -/
def enqueue_job (st : List JobRow) (action : String) (now : Nat) (newId : Nat) :
    List JobRow :=
  st ++ [{ job := newId, action := action, status := .queued, entered := now,
           started := none, finished := none, log := none }]

/-- `SELECT job FROM admin WHERE status = 'queued' ORDER BY entered ASC LIMIT 1`. -/
def oldestQueued (st : List JobRow) : Option JobRow :=
  match st.filter (fun r => r.status = JobStatus.queued) with
  | [] => none
  | x :: xs => some (xs.foldl (fun b r => if r.entered < b.entered then r else b) x)

/-- `UPDATE admin SET status = 'running', started = NOW() WHERE job = (...)
RETURNING *`: claim the oldest queued row, or return no job. -/
def dequeue_job (st : List JobRow) (now : Nat) : List JobRow × Option JobRow :=
  match oldestQueued st with
  | none => (st, none)
  | some r =>
    let r2 := { r with status := JobStatus.running, started := some now }
    (st.map (fun q => if q.job = r.job then r2 else q), some r2)

/-- `UPDATE admin SET status = $2, log = $3, finished = NOW() WHERE job = $1`. -/
def complete_job (st : List JobRow) (jobId : Nat) (status : JobStatus)
    (log : String) (now : Nat) : List JobRow :=
  st.map (fun q =>
    if q.job = jobId then { q with status := status, log := some log, finished := some now }
    else q)

/-- States of the `admin` table reachable by the queue operations, with
`complete_job` applied to running rows with a terminal status (as the worker
pool uses it). -/
inductive QueueReachable : List JobRow → Prop where
  | init : QueueReachable []
  | enq (st : List JobRow) (action : String) (now newId : Nat) :
      QueueReachable st → QueueReachable (enqueue_job st action now newId)
  | deq (st : List JobRow) (now : Nat) :
      QueueReachable st → QueueReachable (dequeue_job st now).1
  | compl (st : List JobRow) (jobId : Nat) (status : JobStatus) (log : String) (now : Nat) :
      QueueReachable st →
      (∀ r ∈ st, r.job = jobId → r.status = JobStatus.running) →
      (status = JobStatus.done ∨ status = JobStatus.error) →
      QueueReachable (complete_job st jobId status log now)

/-- The job-row invariant of the spec: `started` set iff status is
running/done/error, `finished` set iff status is done/error. -/
def JobRowInv (r : JobRow) : Prop :=
  (r.started.isSome = true ↔
    (r.status = JobStatus.running ∨ r.status = JobStatus.done ∨ r.status = JobStatus.error)) ∧
  (r.finished.isSome = true ↔
    (r.status = JobStatus.done ∨ r.status = JobStatus.error))

/-! ## BER response parsing (src/snmp/client.rs lines 344-544).

The helpers keep an explicit cursor `pos` into the byte buffer, exactly as
the source does.  `PErr.decode` models `anyhow::bail!` decode failures;
`PErr.panicOob` models a Rust panic from an out-of-bounds index or slice —
it is a reachable constructor of the model, and the safety theorems prove
the parser never produces it. -/

inductive PErr where
  | decode : String → PErr
  | panicOob : PErr
deriving DecidableEq

/-- Rust `data[i]`: the value, or a panic when out of bounds. -/
def byteAt (data : List Nat) (i : Nat) : Except PErr Nat :=
  match data.get? i with
  | some b => .ok b
  | none => .error .panicOob

/-- Rust `data[a..a+n]`: the slice, or a panic when out of bounds. -/
def sliceAt (data : List Nat) (a n : Nat) : Except PErr (List Nat) :=
  if a + n ≤ data.length then .ok ((data.drop a).take n) else .error .panicOob

/-- From `read_tag`: bounds check, then read the tag byte.  On success the
source advances the cursor to `pos + 1`; callers do the same here. -/
def read_tag (data : List Nat) (pos : Nat) : Except PErr Nat :=
  if data.length ≤ pos then .error (.decode "BER: unexpected end of data reading tag")
  else byteAt data pos

/-- The long-form loop of `read_length`:
`len = (len << 8) | data[pos + i]` over `num_bytes` bytes (bytes are u8, so
the fold is `acc * 256 + b`). -/
def readLenBytes (data : List Nat) : Nat → Nat → Nat → Except PErr Nat
  | _, 0, acc => .ok acc
  | pos, n + 1, acc =>
    match byteAt data pos with
    | .error e => .error e
    | .ok b => readLenBytes data (pos + 1) n (acc * 256 + b)

/-- From `read_length`: short form below 128; otherwise `first & 0x7f` length
bytes, rejected when more than 4 or past the end of the buffer.  Returns the
length and the new cursor. -/
def read_length (data : List Nat) (pos : Nat) : Except PErr (Nat × Nat) :=
  if data.length ≤ pos then .error (.decode "BER: unexpected end of data reading length")
  else
    match byteAt data pos with
    | .error e => .error e
    | .ok first =>
      if first < 128 then .ok (first, pos + 1)
      else
        let numBytes := first % 128
        if numBytes > 4 || pos + 1 + numBytes > data.length then
          .error (.decode "BER: invalid length encoding")
        else
          match readLenBytes data (pos + 1) numBytes 0 with
          | .error e => .error e
          | .ok len => .ok (len, pos + 1 + numBytes)

/-- From `skip_tlv`: read tag and length, check the value fits, and return
the cursor moved past the value. -/
def skip_tlv (data : List Nat) (pos : Nat) : Except PErr Nat :=
  match read_tag data pos with
  | .error e => .error e
  | .ok _ =>
    match read_length data (pos + 1) with
    | .error e => .error e
    | .ok (len, pos2) =>
      if pos2 + len > data.length then .error (.decode "BER: value extends past end of data")
      else .ok (pos2 + len)

/-- From `read_tlv_value`: tag, length, bounds check, then the value bytes
and the cursor moved past them. -/
def read_tlv_value (data : List Nat) (pos : Nat) : Except PErr (Nat × List Nat × Nat) :=
  match read_tag data pos with
  | .error e => .error e
  | .ok tag =>
    match read_length data (pos + 1) with
    | .error e => .error e
    | .ok (len, pos2) =>
      if pos2 + len > data.length then .error (.decode "BER: value extends past end of data")
      else
        match sliceAt data pos2 len with
        | .error e => .error e
        | .ok value => .ok (tag, value, pos2 + len)

/-- The inner component loop of `decode_oid`, on the remaining bytes:
`component = (component << 7) | (byte & 0x7f)` until the continuation bit is
clear; running out of bytes mid-component is the truncation failure.  The
`u32` shift truncates, hence the `% 2^32`; `byte & 0x80 == 0` is
`b % 256 < 128` and `byte & 0x7f` is `b % 128`. -/
def decodeArcComp : Nat → List Nat → Except PErr (Nat × List Nat)
  | _, [] => .error (.decode "BER: truncated OID component")
  | c, b :: bs =>
    let c2 := c * 128 % 4294967296 + b % 128
    if b % 256 < 128 then .ok (c2, bs) else decodeArcComp c2 bs

theorem decodeArcComp_consumes (c : Nat) (l : List Nat) (comp : Nat) (rest : List Nat)
    (h : decodeArcComp c l = .ok (comp, rest)) : rest.length < l.length := by
  induction l generalizing c with
  | nil => simp [decodeArcComp] at h
  | cons b bs ih =>
    simp only [decodeArcComp] at h
    split at h
    · cases h
      simp
    · exact Nat.lt_trans (ih _ h) (by simp)

/-- The outer `while i < data.len()` loop of `decode_oid`, appending each
decoded component. -/
def decodeArcs (acc : List Nat) (l : List Nat) : Except PErr (List Nat) :=
  match l with
  | [] => .ok acc
  | b :: bs =>
    match h : decodeArcComp 0 (b :: bs) with
    | .error e => .error e
    | .ok (c, rest) => decodeArcs (acc ++ [c]) rest
termination_by l.length
decreasing_by exact decodeArcComp_consumes _ _ _ _ h

/-- From `decode_oid`: empty input fails; the first byte yields the first two
arcs (`data[0] / 40`, `data[0] % 40`); the remaining bytes are decoded in
base-128 continuation form. -/
def decode_oid (data : List Nat) : Except PErr (List Nat) :=
  match data with
  | [] => .error (.decode "BER: empty OID")
  | b0 :: rest => decodeArcs [b0 / 40, b0 % 40] rest

/-- The error-status names of `parse_snmp_response`. -/
def snmpErrorName (e : Nat) : String :=
  if e = 1 then "tooBig"
  else if e = 2 then "noSuchName"
  else if e = 3 then "badValue"
  else if e = 4 then "readOnly"
  else if e = 5 then "genErr"
  else if e = 6 then "noAccess"
  else if e = 7 then "wrongType"
  else "unknown"

/-- The `bail!("SNMP error-status: {} ({})", ...)` message. -/
def snmpErrorMsg (e : Nat) : String :=
  "SNMP error-status: " ++ toString e ++ " (" ++ snmpErrorName e ++ ")"

theorem read_length_bounds (data : List Nat) (pos len pos2 : Nat)
    (h : read_length data pos = .ok (len, pos2)) :
    pos < pos2 ∧ pos2 ≤ data.length := by
  unfold read_length at h
  split at h
  · simp at h
  · rename_i hlt
    push_neg at hlt
    unfold byteAt at h
    rcases hg : data.get? pos with _ | b
    · rw [hg] at h
      simp at h
    · rw [hg] at h
      simp only at h
      split at h
      · cases h
        omega
      · split at h
        · simp at h
        · rename_i hbig
          simp only [Bool.or_eq_true, decide_eq_true_eq, not_or] at hbig
          split at h
          · simp at h
          · cases h
            omega

theorem skip_tlv_bounds (data : List Nat) (pos pos2 : Nat)
    (h : skip_tlv data pos = .ok pos2) :
    pos < pos2 ∧ pos2 ≤ data.length := by
  unfold skip_tlv at h
  split at h
  · simp at h
  · split at h
    · simp at h
    · rename_i len p2 hlen
      split at h
      · simp at h
      · cases h
        have := read_length_bounds data (pos + 1) len p2 hlen
        omega

theorem read_tlv_value_bounds (data : List Nat) (pos tag : Nat) (value : List Nat)
    (pos2 : Nat) (h : read_tlv_value data pos = .ok (tag, value, pos2)) :
    pos < pos2 ∧ pos2 ≤ data.length := by
  unfold read_tlv_value at h
  split at h
  · simp at h
  · split at h
    · simp at h
    · rename_i len p2 hlen
      split at h
      · simp at h
      · split at h
        · simp at h
        · cases h
          have := read_length_bounds data (pos + 1) len p2 hlen
          omega

/-- The varbind loop of `parse_snmp_response` (lines 496-520): while inside
the VarBindList and the buffer, read a VarBind SEQUENCE (a non-SEQUENCE tag
breaks out), its OID (wrong tag is a failure) and its value, skipping
exception values `0x80`/`0x81`/`0x82`. -/
def varbindLoop (data : List Nat) (vEnd : Nat) (pos : Nat)
    (acc : List (List Nat × List Nat)) : Except PErr (List (List Nat × List Nat)) :=
  if hIn : pos < vEnd ∧ pos < data.length then
    match read_tag data pos with
    | .error e => .error e
    | .ok tag =>
      if tag ≠ 0x30 then .ok acc
      else
        match hLen : read_length data (pos + 1) with
        | .error e => .error e
        | .ok (_, pos2) =>
          match hOid : read_tlv_value data pos2 with
          | .error e => .error e
          | .ok (oidTag, oidBytes, pos3) =>
            if oidTag ≠ 0x06 then .error (.decode "SNMP: expected OID tag")
            else
              match decode_oid oidBytes with
              | .error e => .error e
              | .ok oid =>
                match hVal : read_tlv_value data pos3 with
                | .error e => .error e
                | .ok (valueTag, valueBytes, pos4) =>
                  if valueTag == 0x82 || valueTag == 0x80 || valueTag == 0x81 then
                    varbindLoop data vEnd pos4 acc
                  else
                    varbindLoop data vEnd pos4 (acc ++ [(oid, valueBytes)])
  else .ok acc
termination_by data.length - pos
decreasing_by
  all_goals
    have h1 := read_length_bounds data (pos + 1) _ pos2 hLen
    have h2 := read_tlv_value_bounds data pos2 _ _ pos3 hOid
    have h3 := read_tlv_value_bounds data pos3 _ _ pos4 hVal
    omega

/-- From `parse_snmp_response`: outer SEQUENCE, skipped version and
community, GetResponse PDU tag `0xa2`, skipped request-id, error-status
(non-zero fails with a named code), skipped error-index, then the
VarBindList.  Message strings keep the constant part of the source's
`bail!` formats. -/
def parse_snmp_response (data : List Nat) : Except PErr (List (List Nat × List Nat)) :=
  if data.length < 2 then .error (.decode "SNMP response too short")
  else
    match read_tag data 0 with
    | .error e => .error e
    | .ok tag =>
      if tag ≠ 0x30 then .error (.decode "SNMP: expected SEQUENCE (0x30)")
      else
        match read_length data 1 with
        | .error e => .error e
        | .ok (_, pos) =>
          match skip_tlv data pos with
          | .error e => .error e
          | .ok pos =>
            match skip_tlv data pos with
            | .error e => .error e
            | .ok pos =>
              match read_tag data pos with
              | .error e => .error e
              | .ok pduTag =>
                if pduTag ≠ 0xa2 then .error (.decode "SNMP: expected GetResponse PDU (0xa2)")
                else
                  match read_length data (pos + 1) with
                  | .error e => .error e
                  | .ok (_, pos) =>
                    match skip_tlv data pos with
                    | .error e => .error e
                    | .ok pos =>
                      match read_tlv_value data pos with
                      | .error e => .error e
                      | .ok (_, errorStatusBytes, pos) =>
                        let errorStatus :=
                          if errorStatusBytes.length == 1 then errorStatusBytes.headD 0 else 0
                        if errorStatus ≠ 0 then .error (.decode (snmpErrorMsg errorStatus))
                        else
                          match skip_tlv data pos with
                          | .error e => .error e
                          | .ok pos =>
                            match read_tag data pos with
                            | .error e => .error e
                            | .ok vlTag =>
                              if vlTag ≠ 0x30 then
                                .error (.decode "SNMP: expected VarBindList SEQUENCE")
                              else
                                match read_length data (pos + 1) with
                                | .error e => .error e
                                | .ok (vlLen, pos) =>
                                  varbindLoop data (pos + vlLen) pos []

/-- From `parse_get_response`: the value of the first varbind, or a failure
when the response holds none. -/
def parse_get_response (data : List Nat) : Except PErr (List Nat) :=
  match parse_snmp_response data with
  | .error e => .error e
  | .ok [] => .error (.decode "SNMP GET: no varbind in response")
  | .ok ((_, value) :: _) => .ok value

/-- From `parse_getnext_response`: the first varbind, or a failure. -/
def parse_getnext_response (data : List Nat) : Except PErr (List Nat × List Nat) :=
  match parse_snmp_response data with
  | .error e => .error e
  | .ok [] => .error (.decode "SNMP GETNEXT: no varbind in response")
  | .ok (vb :: _) => .ok vb

/-- From `parse_getbulk_response`: all varbinds. -/
def parse_getbulk_response (data : List Nat) : Except PErr (List (List Nat × List Nat)) :=
  parse_snmp_response data

/-! ## C7 — error-status handling.

`mkGetResponse err vb` assembles a well-formed GetResponse message with a
one-byte error-status field `err` and arbitrary VarBindList content bytes
`vb` (short-form lengths, hence the `≤ 100` bound): outer SEQUENCE, version
INTEGER 1, community OCTET STRING "p", GetResponse PDU `0xa2`, request-id
INTEGER 42, error-status, error-index INTEGER 0, VarBindList SEQUENCE. -/

def mkGetResponse (err : Nat) (vb : List Nat) : List Nat :=
  0x30 :: (19 + vb.length) ::
  0x02 :: 0x01 :: 0x01 ::
  0x04 :: 0x01 :: 0x70 ::
  0xa2 :: (11 + vb.length) ::
  0x02 :: 0x01 :: 0x2a ::
  0x02 :: 0x01 :: err ::
  0x02 :: 0x01 :: 0x00 ::
  0x30 :: vb.length :: vb

/-- A sample VarBindList: one VarBind pairing OID 1.3.6.1.2.1.1.5.0 with the
OCTET STRING "AB". -/
def sampleVb : List Nat :=
  [0x30, 14, 0x06, 8, 43, 6, 1, 2, 1, 1, 5, 0, 0x04, 2, 0x41, 0x42]

/-! ## OID encoding (src/snmp/client.rs, `build_pdu` lines 594-614).

The OID value bytes of the request builder: the first two arcs combine into
one byte `(oid[0] * 40 + oid[1]) as u8` (u32 arithmetic then a truncating
cast), later arcs use base-128 continuation encoding. -/

/-- The `while val > 0` loop of `build_pdu`: higher 7-bit groups, each with
the continuation bit `0x80`, collected low-to-high (the source reverses the
whole component afterwards). -/
def encHighParts (v : Nat) : List Nat :=
  if h : v = 0 then [] else (v % 128 + 128) :: encHighParts (v / 128)
termination_by v
decreasing_by exact Nat.div_lt_self (Nat.pos_of_ne_zero h) (by omega)

/-- One arc of `build_pdu`'s OID encoding: single byte below 128, otherwise
the reversed list of 7-bit groups (continuation bit on all but the last). -/
def encodeArc (c : Nat) : List Nat :=
  if c < 128 then [c] else (c % 128 :: encHighParts (c / 128)).reverse

/-- The `oid_value` bytes built by `build_pdu`: empty unless there are at
least two arcs; first byte `(oid[0] * 40 + oid[1]) as u8` (u32 multiply and
add wrap at `2^32`, the cast truncates at 256), then each later arc in
base-128 form. -/
def encodeOidValue (oid : List Nat) : List Nat :=
  match oid with
  | a0 :: a1 :: rest => ((a0 * 40 + a1) % 4294967296 % 256) :: rest.flatMap encodeArc
  | _ => []

/-! ## C10 — partiality of the numeric decoders. -/

/-- Claim C10: `parse_integer` is `none` for every length other than
1, 2, 4, 8 (including empty and 3-byte inputs), and `parse_timeticks` on any
byte string whose length is not exactly 4 — including lengths 1, 2 and 8 —
falls back to the signed `parse_integer` interpretation. -/
theorem C10_numeric_decoders_domain (data : List Nat) :
    (data.length ≠ 1 → data.length ≠ 2 → data.length ≠ 4 → data.length ≠ 8 →
      parse_integer data = none) ∧
    (data.length ≠ 4 → parse_timeticks data = parse_integer data) := by
  constructor
  · intro h1 h2 h4 h8
    rcases data with _ | ⟨b0, _ | ⟨b1, _ | ⟨b2, _ | ⟨b3, _ | ⟨b4, _ | ⟨b5, _ | ⟨b6, _ | ⟨b7, _ | ⟨b8, tl⟩⟩⟩⟩⟩⟩⟩⟩⟩ <;>
      simp_all [parse_integer]
  · intro h4
    rcases data with _ | ⟨b0, _ | ⟨b1, _ | ⟨b2, _ | ⟨b3, tl⟩⟩⟩⟩ <;>
      simp_all [parse_timeticks]

/-- Witness for C10: the 3-byte input `[1, 2, 3]` (a legal minimal BER
INTEGER length the decoder nevertheless rejects) for both conjuncts, and the
1-byte input `[255]`, where the fallback observably yields the signed value
`-1`. -/
theorem C10_numeric_decoders_domain_witness :
    parse_integer [1, 2, 3] = none ∧
    parse_timeticks [1, 2, 3] = parse_integer [1, 2, 3] ∧
    parse_timeticks [255] = parse_integer [255] ∧
    parse_integer [255] = some (-1) :=
  ⟨(C10_numeric_decoders_domain [1, 2, 3]).1 (by decide) (by decide) (by decide) (by decide),
   (C10_numeric_decoders_domain [1, 2, 3]).2 (by decide),
   (C10_numeric_decoders_domain [255]).2 (by decide),
   by decide⟩

/-! ## C6 — signed INTEGER vs unsigned TimeTicks decoding. -/

/-- Claim C6: on byte strings of length 1, 2, 4 or 8 `parse_integer` is the
signed two's-complement value of that width (big-endian), while
`parse_timeticks` on 4 bytes is the unsigned 32-bit value; in particular
`[0xFF, 0xFF, 0xFF, 0xFF]` decodes to 4294967295 as TimeTicks and to −1 as
INTEGER. -/
theorem C6_integer_signed_timeticks_unsigned (data : List Nat)
    (hlen : data.length = 1 ∨ data.length = 2 ∨ data.length = 4 ∨ data.length = 8) :
    parse_integer data = some (twosComp (8 * data.length) (beVal data)) ∧
    (data.length = 4 → parse_timeticks data = some ((beVal data : Nat) : Int)) ∧
    parse_timeticks [255, 255, 255, 255] = some 4294967295 ∧
    parse_integer [255, 255, 255, 255] = some (-1) := by
  refine ⟨?_, ?_, by decide, by decide⟩
  · rcases data with _ | ⟨b0, _ | ⟨b1, _ | ⟨b2, _ | ⟨b3, _ | ⟨b4, _ | ⟨b5, _ | ⟨b6, _ | ⟨b7, _ | ⟨b8, tl⟩⟩⟩⟩⟩⟩⟩⟩⟩ <;>
      simp_all [parse_integer, beVal]
  · intro h4
    rcases data with _ | ⟨b0, _ | ⟨b1, _ | ⟨b2, _ | ⟨b3, _ | ⟨b4, tl⟩⟩⟩⟩⟩ <;>
      simp_all [parse_timeticks, beVal]

/-- Witness for C6 at the 4-byte all-ones input. -/
theorem C6_integer_signed_timeticks_unsigned_witness :
    parse_integer [255, 255, 255, 255] =
      some (twosComp (8 * [255, 255, 255, 255].length) (beVal [255, 255, 255, 255])) ∧
    parse_timeticks [255, 255, 255, 255] = some ((beVal [255, 255, 255, 255] : Nat) : Int) :=
  ⟨(C6_integer_signed_timeticks_unsigned [255, 255, 255, 255] (by decide)).1,
   (C6_integer_signed_timeticks_unsigned [255, 255, 255, 255] (by decide)).2.1 (by decide)⟩

/-! ## C1 — layer bitstring derivation vs `has_layer`. -/

/-- Counterexample for C1 as stated: services 78 indeed yields the stored
bitstring "0111001", but on that string `is_switch()` (`has_layer(2)`) and
`is_router()` (`has_layer(3)`) are both false, and the character at position
`6 − 1` is '0' although bit 1 of 78 is set — the discover routine writes the
bit for layer `i+1` at position `i` (least-significant first), while
`has_layer` reads position `7 − layer`. -/
theorem C1_layers_counterexample :
    layersOfServices 78 = ['0', '1', '1', '1', '0', '0', '1'] ∧
    (Device.mk (some (layersOfServices 78))).is_switch = false ∧
    (Device.mk (some (layersOfServices 78))).is_router = false ∧
    (layersOfServices 78).get? (6 - 1) = some '0' ∧
    Nat.testBit 78 1 = true := by
  decide

/-- Claim C1 amended: the discover routine stores a 7-character bitstring
whose character at position `i` is '1' exactly when bit `i` of sysServices
is set (for `i` in `0..7`, so bit 7 is ignored); services 78 yields
"0111001".  This is NOT consistent with `has_layer`'s convention of reading
position `7 − layer`: on the stored string `has_layer(layer)` tests bit
`7 − layer`, so for services 78 both `is_switch()` and `is_router()` are
false. -/
theorem C1_layers_amended (svc : Nat) :
    (layersOfServices svc).length = 7 ∧
    (∀ i, i < 7 → (layersOfServices svc).get? i =
      some (if svc.testBit i then '1' else '0')) ∧
    (∀ layer, 1 ≤ layer → layer ≤ 7 →
      (Device.mk (some (layersOfServices svc))).has_layer layer =
        svc.testBit (7 - layer)) ∧
    layersOfServices 78 = ['0', '1', '1', '1', '0', '0', '1'] ∧
    (Device.mk (some (layersOfServices 78))).is_switch = false ∧
    (Device.mk (some (layersOfServices 78))).is_router = false := by
  refine ⟨by simp [layersOfServices], ?_, ?_, by decide, by decide, by decide⟩
  · intro i hi
    simp [layersOfServices, List.get?_eq_getElem?, List.getElem?_map,
      List.getElem?_range hi]
  · intro layer h1 h7
    have hidx : 7 - layer < 7 := by omega
    have hlz : (layer == 0) = false := by
      simp [Nat.ne_of_gt (Nat.lt_of_lt_of_le Nat.zero_lt_one h1)]
    simp only [Device.has_layer, layersOfServices, hlz, Bool.false_or,
      decide_eq_true_eq]
    rw [if_neg (by omega)]
    rw [List.get?_eq_getElem?, List.getElem?_map, List.getElem?_range hidx]
    by_cases hb : svc.testBit (7 - layer) <;> simp [hb]

/-- Witness for C1 amended at services 78, position 1, layer 2. -/
theorem C1_layers_amended_witness :
    (layersOfServices 78).get? 1 = some (if Nat.testBit 78 1 then '1' else '0') ∧
    (Device.mk (some (layersOfServices 78))).has_layer 2 = Nat.testBit 78 (7 - 2) :=
  ⟨(C1_layers_amended 78).2.1 1 (by decide),
   (C1_layers_amended 78).2.2.1 2 (by decide) (by decide)⟩

/-! ## C8 — ACL permission semantics. -/

/-- Claim C8: `is_permitted` is true exactly when the IP is not matched by
the deny list and (the allow list is empty or the IP matches the allow
list); consequently empty/empty is always permitted, an exact deny of the
target always rejects, and a non-empty allow list matching nothing rejects. -/
theorem C8_is_permitted_semantics (ip : Nat) (only no : List AclEntry) :
    (is_permitted ip only no = true ↔
      (acl_matches ip no = false ∧ (only = [] ∨ acl_matches ip only = true))) ∧
    is_permitted ip [] [] = true ∧
    (AclEntry.exact ip ∈ no → is_permitted ip only no = false) ∧
    (only ≠ [] → acl_matches ip only = false → is_permitted ip only no = false) := by
  have hno : acl_matches_no ip no = acl_matches ip no := by
    unfold acl_matches_no
    rcases no with _ | ⟨e, l⟩
    · simp [acl_matches]
    · simp
  have honly : acl_matches_only ip only = (only.isEmpty || acl_matches ip only) := by
    unfold acl_matches_only
    rcases only with _ | ⟨e, l⟩ <;> simp
  refine ⟨?_, by simp [is_permitted, acl_matches_no, acl_matches_only], ?_, ?_⟩
  · unfold is_permitted
    rw [hno, honly]
    cases h1 : acl_matches ip no
    · simp [List.isEmpty_iff]
    · simp
  · intro hm
    have hmatchno : acl_matches ip no = true := by
      simp only [acl_matches, List.any_eq_true]
      exact ⟨AclEntry.exact ip, hm, by simp⟩
    unfold is_permitted
    rw [hno, hmatchno]
    simp
  · intro hne hmatch
    unfold is_permitted
    rw [hno, honly]
    cases h1 : acl_matches ip no
    · simp [List.isEmpty_iff, hne, hmatch]
    · simp

/-- Witness for C8: target 5 denied by an exact entry despite a wildcard
allow list, and a non-matching non-empty allow list rejecting. -/
theorem C8_is_permitted_semantics_witness :
    is_permitted 5 [AclEntry.wildcard] [AclEntry.exact 5] = false ∧
    is_permitted 5 [AclEntry.exact 6] [] = false :=
  ⟨(C8_is_permitted_semantics 5 [AclEntry.wildcard] [AclEntry.exact 5]).2.2.1 (by decide),
   (C8_is_permitted_semantics 5 [AclEntry.exact 6] []).2.2.2 (by decide) (by decide)⟩

/-! ## C9 — arpwalk cadence. -/

/-- Counterexample for C9 as stated: the scheduler enqueues arpwalk exactly
when the minute-of-hour is 50, so two consecutive enqueuing ticks (minute 50
and minute 110 of a run, with no enqueuing tick in between) are 60 minutes
apart, not 50. -/
theorem C9_arpwalk_counterexample :
    arpwalk_due 50 = true ∧
    arpwalk_due 110 = true ∧
    ((List.range 59).all (fun k => !arpwalk_due (51 + k))) = true ∧
    110 - 50 ≠ 50 := by
  decide

/-- Claim C9 amended: any two consecutive ticks at which the scheduler
enqueues an arpwalk job are separated by exactly 60 minutes — the rule fires
when the minute-of-hour equals 50, i.e. once per hour (the source comment
says "every 50 minutes" but the guard `minute == 50` is hourly). -/
theorem C9_arpwalk_hourly (t1 t2 : Nat)
    (h1 : arpwalk_due t1 = true) (h2 : arpwalk_due t2 = true) (hlt : t1 < t2)
    (hgap : ∀ t, t < t2 → t1 < t → arpwalk_due t = false) :
    t2 - t1 = 60 := by
  simp only [arpwalk_due, Nat.beq_eq_true_eq] at h1 h2
  by_contra hne
  have h60 : t1 + 60 < t2 := by omega
  have := hgap (t1 + 60) h60 (by omega)
  simp only [arpwalk_due, Nat.add_mod_right, beq_eq_false_iff_ne, ne_eq] at this
  exact this h1

/-- Witness for C9 amended at the consecutive arpwalk ticks 50 and 110. -/
theorem C9_arpwalk_hourly_witness : 110 - 50 = 60 :=
  C9_arpwalk_hourly 50 110 (by decide) (by decide) (by decide)
    (by decide)

/-! ## C4 — job queue lifecycle invariant. -/

theorem foldlEarliest_mem (x : JobRow) (xs : List JobRow) :
    xs.foldl (fun b r => if r.entered < b.entered then r else b) x ∈ x :: xs := by
  induction xs generalizing x with
  | nil => simp
  | cons y ys ih =>
    simp only [List.foldl_cons]
    by_cases hc : y.entered < x.entered
    · rw [if_pos hc]
      rcases List.mem_cons.mp (ih y) with h | h <;> simp [h]
    · rw [if_neg hc]
      rcases List.mem_cons.mp (ih x) with h | h <;> simp [h]

theorem oldestQueued_mem (st : List JobRow) (r : JobRow)
    (h : oldestQueued st = some r) : r ∈ st ∧ r.status = JobStatus.queued := by
  unfold oldestQueued at h
  rcases hf : st.filter (fun q => q.status = JobStatus.queued) with _ | ⟨x, xs⟩
  · rw [hf] at h
    simp at h
  · rw [hf] at h
    simp only [Option.some.injEq] at h
    have hm : r ∈ x :: xs := h ▸ foldlEarliest_mem x xs
    have : r ∈ st.filter (fun q => q.status = JobStatus.queued) := hf ▸ hm
    have := List.mem_filter.mp this
    exact ⟨this.1, by simpa using this.2⟩

/-- Claim C4: queue operations preserve the invariant that `started` is set
iff status ∈ {running, done, error} and `finished` is set iff
status ∈ {done, error}; moreover enqueue creates a queued row with both
timestamps unset, dequeue turns the oldest queued row into a running row
with `started` set, and complete (with a terminal status) sets the status,
`finished` and the log text. -/
theorem C4_queue_invariant :
    (∀ st, QueueReachable st → ∀ r ∈ st, JobRowInv r) ∧
    (∀ st action now newId, ∃ row, enqueue_job st action now newId = st ++ [row] ∧
        row.status = JobStatus.queued ∧ row.started = none ∧ row.finished = none) ∧
    (∀ st now r2, (dequeue_job st now).2 = some r2 →
        r2.status = JobStatus.running ∧ r2.started = some now) ∧
    (∀ st r0, oldestQueued st = some r0 → r0 ∈ st ∧ r0.status = JobStatus.queued) ∧
    (∀ st jobId status log now r, r ∈ complete_job st jobId status log now →
        r.job = jobId → r.status = status ∧ r.finished = some now ∧ r.log = some log) := by
  refine ⟨?_, ?_, ?_, oldestQueued_mem, ?_⟩
  · intro st hreach
    induction hreach with
    | init => simp
    | enq st action now newId _ ih =>
      intro r hr
      rcases List.mem_append.mp hr with h | h
      · exact ih r h
      · simp only [List.mem_singleton] at h
        subst h
        simp [JobRowInv]
    | deq st now _ ih =>
      intro r hr
      unfold dequeue_job at hr
      rcases hq : oldestQueued st with _ | r0
      · rw [hq] at hr
        exact ih r hr
      · rw [hq] at hr
        simp only at hr
        rcases List.mem_map.mp hr with ⟨q, hqmem, hqeq⟩
        by_cases hid : q.job = r0.job
        · rw [if_pos hid] at hqeq
          subst hqeq
          have h0 := oldestQueued_mem st r0 hq
          have hinv := ih r0 h0.1
          unfold JobRowInv at hinv ⊢
          simp only
          constructor
          · simp
          · rw [show r0.finished.isSome = false by
              rcases hfin : r0.finished with _ | v
              · simp
              · exact absurd (hinv.2.mp (by simp [hfin])) (by simp [h0.2])]
            simp
        · rw [if_neg hid] at hqeq
          subst hqeq
          exact ih q hqmem
    | compl st jobId status log now _ hrun hterm ih =>
      intro r hr
      unfold complete_job at hr
      rcases List.mem_map.mp hr with ⟨q, hqmem, hqeq⟩
      by_cases hid : q.job = jobId
      · rw [if_pos hid] at hqeq
        subst hqeq
        have hq := hrun q hqmem hid
        have hinv := ih q hqmem
        unfold JobRowInv at hinv ⊢
        simp only
        constructor
        · rw [hinv.1.mpr (Or.inl hq)]
          rcases hterm with h | h <;> simp [h]
        · rcases hterm with h | h <;> simp [h]
      · rw [if_neg hid] at hqeq
        subst hqeq
        exact ih q hqmem
  · intro st action now newId
    exact ⟨_, rfl, rfl, rfl, rfl⟩
  · intro st now r2 h
    unfold dequeue_job at h
    rcases hq : oldestQueued st with _ | r0
    · rw [hq] at h
      simp at h
    · rw [hq] at h
      simp only [Option.some.injEq] at h
      subst h
      exact ⟨rfl, rfl⟩
  · intro st jobId status log now r hr hid
    unfold complete_job at hr
    rcases List.mem_map.mp hr with ⟨q, _, hqeq⟩
    by_cases hjid : q.job = jobId
    · rw [if_pos hjid] at hqeq
      subst hqeq
      exact ⟨rfl, rfl, rfl⟩
    · rw [if_neg hjid] at hqeq
      subst hqeq
      exact absurd hid hjid

/-- Witness for C4 along the concrete trace enqueue → dequeue →
complete(done): the final row satisfies the invariant. -/
theorem C4_queue_invariant_witness :
    JobRowInv { job := 1, action := "discover", status := JobStatus.done,
                entered := 10, started := some 20, finished := some 30,
                log := some "ok" } := by
  have hreach : QueueReachable
      (complete_job (dequeue_job (enqueue_job [] "discover" 10 1) 20).1 1
        JobStatus.done "ok" 30) :=
    QueueReachable.compl _ 1 JobStatus.done "ok" 30
      (QueueReachable.deq _ 20 (QueueReachable.enq _ "discover" 10 1 QueueReachable.init))
      (by decide) (Or.inl rfl)
  exact C4_queue_invariant.1 _ hreach _ (by decide)

/-! ## C2 — walk termination and result preservation. -/

theorem lexLe_append_cons (xs : List Nat) (a : Nat) (t : List Nat) :
    lexLe (xs ++ a :: t) xs = false := by
  induction xs with
  | nil => rfl
  | cons x xs ih => simp [lexLe, ih]

theorem isPrefixOf_self_append (xs t : List Nat) :
    List.isPrefixOf xs (xs ++ t) = true := by
  induction xs with
  | nil => simp [List.isPrefixOf]
  | cons x xs ih => simp [List.isPrefixOf, ih]

theorem walkAux_grow_none (fuel : Nat) : ∀ (k : Nat) (acc : List (List Nat × List Nat)),
    walkAux (growResponder [1, 3, 6]) [1, 3, 6] fuel k
      ([1, 3, 6] ++ List.replicate k 1) acc = none := by
  induction fuel with
  | zero => intro k acc; rfl
  | succ fuel ih =>
    intro k acc
    have hsplit : [1, 3, 6] ++ List.replicate (k + 1) 1 =
        ([1, 3, 6] ++ List.replicate k 1) ++ [1] := by
      rw [List.replicate_succ', List.append_assoc]
    show walkAux _ _ (fuel + 1) _ _ _ = none
    unfold walkAux growResponder
    simp only
    rw [if_neg, if_neg]
    · rw [show [1, 3, 6] ++ List.replicate (k + 1) 1 =
          [1, 3, 6] ++ List.replicate (k + 1) 1 from rfl]
      exact ih (k + 1) (acc ++ [([1, 3, 6] ++ List.replicate (k + 1) 1, [])])
    · rw [hsplit, lexLe_append_cons]
      simp
    · rw [isPrefixOf_self_append]
      simp [List.isEmpty_iff]

/-- Counterexample for C2 as stated: walk does NOT terminate for every
responder.  An agent that keeps returning a strictly larger OID inside the
subtree (each answer extends the previous OID by one arc) never triggers any
stopping condition, so the walk loop runs forever — no amount of fuel makes
it return. -/
theorem C2_walk_counterexample :
    ¬ ∃ fuel, (snmp_walk (growResponder [1, 3, 6]) [1, 3, 6] fuel).isSome = true := by
  rintro ⟨fuel, hsome⟩
  have h0 : [1, 3, 6] ++ List.replicate 0 1 = [1, 3, 6] := by simp
  have := walkAux_grow_none fuel 0 []
  rw [h0] at this
  rw [show snmp_walk (growResponder [1, 3, 6]) [1, 3, 6] fuel =
      walkAux (growResponder [1, 3, 6]) [1, 3, 6] fuel 0 [1, 3, 6] [] from rfl,
    this] at hsome
  simp at hsome

/-- Claim C2 amended: walk never propagates an exchange error (every result
it returns is `Ok` with the pairs accumulated before the stop); it
terminates whenever some `get_next` answer unconditionally stops it (an
error, an empty OID, or an OID outside the subtree) — in particular within
`k + 1` calls when answer `k` is such a stop — and on the spec's three mock
responders it returns exactly the results collected before the stopping
condition.  Termination does not hold for every responder: an agent
answering with ever-growing in-subtree OIDs loops forever. -/
theorem C2_walk_amended :
    (∀ (r : Responder) (base : List Nat) (fuel k : Nat) (c : List Nat)
        (acc : List (List Nat × List Nat)) res,
        walkAux r base fuel k c acc = some res → ∃ l, res = .ok l) ∧
    (∀ (r : Responder) (base : List Nat) (k : Nat), stopAnswer r base k →
        (snmp_walk r base (k + 1)).isSome = true) ∧
    snmp_walk mockNonAdvancing [1, 3, 6] 10 = some (.ok [([1, 3, 6, 1], [7])]) ∧
    snmp_walk mockOutside [1, 3, 6] 10 = some (.ok [([1, 3, 6, 1], [7])]) ∧
    snmp_walk mockErrThird [1, 3, 6] 10 =
      some (.ok [([1, 3, 6, 1], [7]), ([1, 3, 6, 2], [8])]) := by
  refine ⟨?_, ?_, rfl, rfl, rfl⟩
  · intro r base fuel
    induction fuel with
    | zero => intro k c acc res h; simp [walkAux] at h
    | succ fuel ih =>
      intro k c acc res h
      unfold walkAux at h
      rcases hrk : r k with e | ⟨next, v⟩ <;> rw [hrk] at h
      · exact ⟨acc, by simpa using h.symm⟩
      · simp only at h
        split at h
        · exact ⟨acc, by simpa using h.symm⟩
        · split at h
          · exact ⟨acc, by simpa using h.symm⟩
          · exact ih (k + 1) next (acc ++ [(next, v)]) res h
  · intro r base k hstop
    suffices hgen : ∀ (fuel j : Nat) (c : List Nat) (acc : List (List Nat × List Nat)),
        j ≤ k → k < j + fuel → (walkAux r base fuel j c acc).isSome = true by
      exact hgen (k + 1) 0 base [] (Nat.zero_le k) (by omega)
    intro fuel
    induction fuel with
    | zero => intro j c acc hjk hlt; omega
    | succ fuel ih =>
      intro j c acc hjk hlt
      unfold walkAux
      rcases hrj : r j with e | ⟨next, v⟩
      · simp
      · simp only
        split
        · simp
        · split
          · simp
          · rename_i hcont _
            have hjne : j ≠ k := by
              intro he
              subst he
              unfold stopAnswer at hstop
              rw [hrj] at hstop
              simp only [Bool.or_eq_true, Bool.not_eq_eq_eq_not, Bool.not_true] at hcont
              push_neg at hcont
              rcases hstop with h | h
              · rw [h] at hcont
                simp at hcont
              · rw [h] at hcont
                simp at hcont
            exact ih (j + 1) next (acc ++ [(next, v)]) (by omega) (by omega)

/-- Witness for C2 amended: mock (c) errors on its third call, so the walk
returns within three calls. -/
theorem C2_walk_amended_witness :
    (snmp_walk mockErrThird [1, 3, 6] 3).isSome = true :=
  C2_walk_amended.2.1 mockErrThird [1, 3, 6] 2 (by simp [stopAnswer, mockErrThird])

/-! ## C3 — decoding never panics nor reads out of bounds. -/

theorem read_tag_no_panic (data : List Nat) (pos : Nat) :
    read_tag data pos ≠ .error PErr.panicOob := by
  unfold read_tag byteAt
  split
  · simp
  · rename_i h
    rcases hg : data.get? pos with _ | b
    · rw [List.get?_eq_none] at hg
      omega
    · simp [hg]

theorem readLenBytes_no_panic (data : List Nat) : ∀ (n pos acc : Nat),
    pos + n ≤ data.length → readLenBytes data pos n acc ≠ .error PErr.panicOob := by
  intro n
  induction n with
  | zero =>
    intro pos acc h
    simp [readLenBytes]
  | succ n ih =>
    intro pos acc h
    unfold readLenBytes byteAt
    rcases hg : data.get? pos with _ | b
    · rw [List.get?_eq_none] at hg
      omega
    · simp only [hg]
      exact ih (pos + 1) (acc * 256 + b) (by omega)

theorem read_length_no_panic (data : List Nat) (pos : Nat) :
    read_length data pos ≠ .error PErr.panicOob := by
  unfold read_length byteAt
  split
  · simp
  · rename_i h
    rcases hg : data.get? pos with _ | b
    · rw [List.get?_eq_none] at hg
      omega
    · simp only [hg]
      split
      · simp
      · split
        · simp
        · rename_i hbig
          split
          · rename_i e heq
            intro hc
            simp only [Except.error.injEq] at hc
            subst hc
            refine absurd heq (readLenBytes_no_panic data _ _ _ ?_)
            simp only [Bool.or_eq_true, decide_eq_true_eq, not_or] at hbig
            omega
          · simp

theorem skip_tlv_no_panic (data : List Nat) (pos : Nat) :
    skip_tlv data pos ≠ .error PErr.panicOob := by
  unfold skip_tlv
  repeat' split
  all_goals intro hc
  all_goals simp_all [read_tag_no_panic, read_length_no_panic]

theorem sliceAt_no_panic (data : List Nat) (a n : Nat) (h : a + n ≤ data.length) :
    sliceAt data a n ≠ .error PErr.panicOob := by
  unfold sliceAt
  rw [if_pos h]
  simp

theorem read_tlv_value_no_panic (data : List Nat) (pos : Nat) :
    read_tlv_value data pos ≠ .error PErr.panicOob := by
  unfold read_tlv_value
  repeat' split
  all_goals intro hc
  all_goals try (simp only [Except.error.injEq] at hc; subst hc)
  all_goals simp_all [read_tag_no_panic, read_length_no_panic]
  · rename_i len pos2 hlen hfits e heq
    refine absurd heq (sliceAt_no_panic data pos2 len ?_)
    omega

theorem decodeArcComp_no_panic : ∀ (l : List Nat) (c : Nat),
    decodeArcComp c l ≠ .error PErr.panicOob := by
  intro l
  induction l with
  | nil => intro c; simp [decodeArcComp]
  | cons b bs ih =>
    intro c
    unfold decodeArcComp
    split
    · simp
    · exact ih _

theorem decodeArcs_no_panic_aux : ∀ (n : Nat) (l : List Nat), l.length ≤ n →
    ∀ acc, decodeArcs acc l ≠ .error PErr.panicOob := by
  intro n
  induction n with
  | zero =>
    intro l hl acc
    have : l = [] := List.eq_nil_of_length_eq_zero (by omega)
    subst this
    simp [decodeArcs]
  | succ n ih =>
    intro l hl acc
    rcases l with _ | ⟨b, bs⟩
    · simp [decodeArcs]
    · unfold decodeArcs
      split
      · rename_i e heq
        intro hc
        simp only [Except.error.injEq] at hc
        subst hc
        exact decodeArcComp_no_panic (b :: bs) 0 heq
      · rename_i c rest heq
        have hcons := decodeArcComp_consumes 0 (b :: bs) c rest heq
        refine ih rest ?_ (acc ++ [c])
        simp only [List.length_cons] at hcons hl
        omega

theorem decode_oid_no_panic (data : List Nat) :
    decode_oid data ≠ .error PErr.panicOob := by
  unfold decode_oid
  rcases data with _ | ⟨b0, rest⟩
  · simp
  · exact decodeArcs_no_panic_aux rest.length rest le_rfl _

theorem varbindLoop_no_panic_aux : ∀ (n : Nat) (data : List Nat) (vEnd pos : Nat)
    (acc : List (List Nat × List Nat)), data.length - pos ≤ n →
    varbindLoop data vEnd pos acc ≠ .error PErr.panicOob := by
  intro n
  induction n with
  | zero =>
    intro data vEnd pos acc h
    unfold varbindLoop
    rw [dif_neg (by omega)]
    simp
  | succ n ih =>
    intro data vEnd pos acc h
    unfold varbindLoop
    split
    · rename_i hIn
      split
      · rename_i e heq
        intro hc
        simp only [Except.error.injEq] at hc
        subst hc
        exact read_tag_no_panic data pos heq
      · split
        · simp
        · split
          · rename_i e hLen
            intro hc
            simp only [Except.error.injEq] at hc
            subst hc
            exact read_length_no_panic data (pos + 1) hLen
          · rename_i vbLen pos2 hLen
            split
            · rename_i e hOid
              intro hc
              simp only [Except.error.injEq] at hc
              subst hc
              exact read_tlv_value_no_panic data pos2 hOid
            · rename_i oidTag oidBytes pos3 hOid
              split
              · simp
              · split
                · rename_i e heq
                  intro hc
                  simp only [Except.error.injEq] at hc
                  subst hc
                  exact decode_oid_no_panic oidBytes heq
                · split
                  · rename_i e hVal
                    intro hc
                    simp only [Except.error.injEq] at hc
                    subst hc
                    exact read_tlv_value_no_panic data pos3 hVal
                  · rename_i oid hOidOk valueTag valueBytes pos4 hVal
                    have h1 := read_length_bounds data (pos + 1) vbLen pos2 hLen
                    have h2 := read_tlv_value_bounds data pos2 _ _ pos3 hOid
                    have h3 := read_tlv_value_bounds data pos3 _ _ pos4 hVal
                    split
                    · exact ih data vEnd pos4 acc (by omega)
                    · exact ih data vEnd pos4 (acc ++ [(oid, valueBytes)]) (by omega)
    · simp

theorem varbindLoop_no_panic (data : List Nat) (vEnd pos : Nat)
    (acc : List (List Nat × List Nat)) :
    varbindLoop data vEnd pos acc ≠ .error PErr.panicOob :=
  varbindLoop_no_panic_aux (data.length - pos) data vEnd pos acc le_rfl

theorem parse_snmp_response_no_panic (data : List Nat) :
    parse_snmp_response data ≠ .error PErr.panicOob := by
  unfold parse_snmp_response
  repeat' split
  all_goals intro hc
  all_goals try (dsimp only at hc; split at hc)
  all_goals try (simp only [Except.error.injEq] at hc; subst hc)
  all_goals
    simp_all [read_tag_no_panic, read_length_no_panic, skip_tlv_no_panic,
      read_tlv_value_no_panic, varbindLoop_no_panic]

/-- Claim C3: SNMP response decoding is total and memory-safe on every input
byte sequence — `parse_snmp_response` and all three wrappers built on it
always return either a decoded result or a decode error, and never reach the
out-of-bounds marker (every length and value read is bounds-checked before
the access). -/
theorem C3_parsing_never_panics (data : List Nat) :
    parse_snmp_response data ≠ .error PErr.panicOob ∧
    parse_get_response data ≠ .error PErr.panicOob ∧
    parse_getnext_response data ≠ .error PErr.panicOob ∧
    parse_getbulk_response data ≠ .error PErr.panicOob := by
  have hmain := parse_snmp_response_no_panic data
  refine ⟨hmain, ?_, ?_, hmain⟩
  · unfold parse_get_response
    split
    · rename_i e heq
      intro hc
      simp only [Except.error.injEq] at hc
      subst hc
      exact hmain heq
    · simp
    · simp
  · unfold parse_getnext_response
    split
    · rename_i e heq
      intro hc
      simp only [Except.error.injEq] at hc
      subst hc
      exact hmain heq
    · simp
    · simp

/-! ## C5 — OID encode/decode roundtrip. -/

theorem encHighParts_zero : encHighParts 0 = [] := by
  simp [encHighParts]

theorem encHighParts_pos (v : Nat) (hv : 0 < v) :
    encHighParts v = (v % 128 + 128) :: encHighParts (v / 128) := by
  rw [encHighParts]
  rw [dif_neg (by omega)]

theorem encHighParts_length_pos (v : Nat) (hv : 0 < v) :
    (encHighParts v).length = (encHighParts (v / 128)).length + 1 := by
  rw [encHighParts_pos v hv]
  simp

theorem decodeArcComp_cons (c b : Nat) (bs : List Nat) :
    decodeArcComp c (b :: bs) =
      if b % 256 < 128 then .ok (c * 128 % 4294967296 + b % 128, bs)
      else decodeArcComp (c * 128 % 4294967296 + b % 128) bs := by
  rw [decodeArcComp]

/-- Continuation bytes (`0x80` set) never end a component, so reading the
reversed high groups of `v` just accumulates `v` into the component. -/
theorem decodeArcComp_through_high (v : Nat) (hv : 0 < v) :
    ∀ (acc : Nat) (tail : List Nat),
      acc * 128 ^ (encHighParts v).length + v < 4294967296 →
      decodeArcComp acc ((encHighParts v).reverse ++ tail) =
        decodeArcComp (acc * 128 ^ (encHighParts v).length + v) tail := by
  induction v using Nat.strong_induction_on with
  | _ v ih =>
    intro acc tail hbound
    by_cases hsmall : v < 128
    · have hv128 : v / 128 = 0 := Nat.div_eq_of_lt hsmall
      rw [encHighParts_pos v hv, hv128, encHighParts_zero] at hbound ⊢
      simp only [List.reverse_cons, List.reverse_nil, List.nil_append,
        List.length_cons, List.length_nil, Nat.zero_add, pow_one] at hbound ⊢
      rw [List.cons_append, decodeArcComp_cons, if_neg (by omega)]
      rw [List.nil_append]
      have h2 : acc * 128 % 4294967296 + (v % 128 + 128) % 128 = acc * 128 + v := by
        omega
      rw [h2]
    · have hvd : 0 < v / 128 := Nat.div_pos (by omega) (by omega)
      have hlen := encHighParts_length_pos v hv
      rw [hlen] at hbound ⊢
      have hpow : acc * 128 ^ ((encHighParts (v / 128)).length + 1) =
          acc * 128 ^ (encHighParts (v / 128)).length * 128 := by
        rw [pow_succ]
        ring
      rw [hpow] at hbound ⊢
      rw [encHighParts_pos v hv]
      simp only [List.reverse_cons, List.append_assoc, List.singleton_append]
      have hboundIH : acc * 128 ^ (encHighParts (v / 128)).length + v / 128 < 4294967296 := by
        generalize acc * 128 ^ (encHighParts (v / 128)).length = q at hbound ⊢
        omega
      rw [ih (v / 128) (Nat.div_lt_self hv (by omega)) hvd acc ((v % 128 + 128) :: tail)
        hboundIH]
      rw [decodeArcComp_cons, if_neg (by omega)]
      have hsplit : (acc * 128 ^ (encHighParts (v / 128)).length + v / 128) * 128 =
          acc * 128 ^ (encHighParts (v / 128)).length * 128 + (v / 128) * 128 := by ring
      generalize hq : acc * 128 ^ (encHighParts (v / 128)).length = q at hbound hsplit ⊢
      rw [hsplit]
      have : (q * 128 + v / 128 * 128) % 4294967296 + (v % 128 + 128) % 128 =
          q * 128 + v := by omega
      rw [this]

theorem decodeArcComp_encodeArc (c : Nat) (hc : c < 4294967296) (tail : List Nat) :
    decodeArcComp 0 (encodeArc c ++ tail) = .ok (c, tail) := by
  unfold encodeArc
  by_cases h : c < 128
  · rw [if_pos h, List.singleton_append, decodeArcComp_cons, if_pos (by omega)]
    have : 0 * 128 % 4294967296 + c % 128 = c := by omega
    rw [this]
  · rw [if_neg h]
    simp only [List.reverse_cons, List.append_assoc, List.singleton_append]
    have hvd : 0 < c / 128 := Nat.div_pos (by omega) (by omega)
    have hbound : 0 * 128 ^ (encHighParts (c / 128)).length + c / 128 < 4294967296 := by
      have := Nat.div_le_self c 128
      omega
    rw [decodeArcComp_through_high (c / 128) hvd 0 ((c % 128) :: tail) hbound]
    rw [decodeArcComp_cons, if_pos (by omega)]
    have : (0 * 128 ^ (encHighParts (c / 128)).length + c / 128) * 128 % 4294967296 +
        c % 128 % 128 = c := by
      have h1 : (0 * 128 ^ (encHighParts (c / 128)).length + c / 128) * 128 =
          (c / 128) * 128 := by ring
      rw [h1]
      omega
    rw [this]

theorem encodeArc_ne_nil (c : Nat) : encodeArc c ≠ [] := by
  unfold encodeArc
  split
  · simp
  · simp

theorem decodeArcs_encode (rest : List Nat) : ∀ (acc : List Nat),
    (∀ x ∈ rest, x < 4294967296) →
    decodeArcs acc (rest.flatMap encodeArc) = .ok (acc ++ rest) := by
  induction rest with
  | nil =>
    intro acc h
    simp [decodeArcs]
  | cons c cs ih =>
    intro acc h
    have hc : c < 4294967296 := h c (by simp)
    have hflat : (c :: cs).flatMap encodeArc = encodeArc c ++ cs.flatMap encodeArc := by
      simp
    rw [hflat]
    rcases hE : encodeArc c with _ | ⟨b, bs⟩
    · exact absurd hE (encodeArc_ne_nil c)
    · rw [List.cons_append]
      rw [decodeArcs]
      have hcomp : decodeArcComp 0 (b :: (bs ++ cs.flatMap encodeArc)) =
          .ok (c, cs.flatMap encodeArc) := by
        have := decodeArcComp_encodeArc c hc (cs.flatMap encodeArc)
        rw [hE, List.cons_append] at this
        exact this
      rw [hcomp]
      dsimp only
      rw [ih (acc ++ [c]) (fun x hx => h x (by simp [hx]))]
      simp

/-- Counterexample for C5 as stated: the claim's "valid OIDs" are any arc
sequences with at least two arcs, but the first-byte packing
`(oid[0] * 40 + oid[1]) as u8` combined with decoding by `/ 40` and `% 40`
is not injective once the second arc reaches 40: the two-arc OID `1.100`
encodes to the single byte 140, which decodes to `3.20`. -/
theorem C5_oid_roundtrip_counterexample :
    encodeOidValue [1, 100] = [140] ∧
    decode_oid (encodeOidValue [1, 100]) = .ok [3, 20] ∧
    decode_oid (encodeOidValue [1, 100]) ≠ .ok [1, 100] := by
  have henc : encodeOidValue [1, 100] = [140] := rfl
  have hdec : decode_oid (encodeOidValue [1, 100]) = .ok [3, 20] := by
    show decodeArcs [140 / 40, 140 % 40] [] = Except.ok [3, 20]
    rw [decodeArcs]
  refine ⟨henc, hdec, ?_⟩
  rw [hdec]
  simp

/-- Claim C5 amended: decoding inverts the builder's OID encoding for every
OID of at least two arcs whose second arc is below 40, whose combined first
byte `40 * arc0 + arc1` fits in one byte (below 256), and whose remaining
arcs fit in `u32` (the encoder's arc type); without the first two bounds the
one-byte packing is not invertible (see the counterexample). -/
theorem C5_oid_roundtrip_amended (a0 a1 : Nat) (rest : List Nat)
    (h1 : a1 < 40) (h01 : a0 * 40 + a1 < 256)
    (hrest : ∀ x ∈ rest, x < 4294967296) :
    decode_oid (encodeOidValue (a0 :: a1 :: rest)) = .ok (a0 :: a1 :: rest) := by
  unfold encodeOidValue decode_oid
  dsimp only
  have hb : (a0 * 40 + a1) % 4294967296 % 256 = a0 * 40 + a1 := by omega
  rw [hb]
  rw [decodeArcs_encode rest [(a0 * 40 + a1) / 40, (a0 * 40 + a1) % 40] hrest]
  have hdiv : (a0 * 40 + a1) / 40 = a0 := by omega
  have hmod : (a0 * 40 + a1) % 40 = a1 := by omega
  rw [hdiv, hmod]
  simp

/-- Witness for C5 amended at the OID `1.3.6.1.2.1.909999.1` (an arc above
128 exercising the multi-byte continuation encoding). -/
theorem C5_oid_roundtrip_amended_witness :
    decode_oid (encodeOidValue [1, 3, 6, 1, 2, 1, 909999, 1]) =
      .ok [1, 3, 6, 1, 2, 1, 909999, 1] :=
  C5_oid_roundtrip_amended 1 3 [6, 1, 2, 1, 909999, 1] (by decide) (by decide)
    (by decide)

/-! ## C7 — error-status handling. -/

theorem parse_mkGetResponse (err : Nat) (vb : List Nat) (hvb : vb.length ≤ 100) :
    parse_snmp_response (mkGetResponse err vb) =
      if err ≠ 0 then .error (.decode (snmpErrorMsg err))
      else varbindLoop (mkGetResponse err vb) (21 + vb.length) 21 [] := by
  have hb1 : 19 + vb.length < 128 := by omega
  have hb2 : 11 + vb.length < 128 := by omega
  have hb3 : vb.length < 128 := by omega
  have e1 : read_tag (mkGetResponse err vb) 0 = .ok 48 := by
    simp [read_tag, byteAt, mkGetResponse]
  have e2 : read_length (mkGetResponse err vb) 1 = .ok (19 + vb.length, 2) := by
    simp [read_length, byteAt, mkGetResponse, hb1]
  have e3 : skip_tlv (mkGetResponse err vb) 2 = .ok 5 := by
    simp [skip_tlv, read_tag, read_length, byteAt, mkGetResponse]
  have e4 : skip_tlv (mkGetResponse err vb) 5 = .ok 8 := by
    simp [skip_tlv, read_tag, read_length, byteAt, mkGetResponse]
  have e5 : read_tag (mkGetResponse err vb) 8 = .ok 162 := by
    simp [read_tag, byteAt, mkGetResponse]
  have e6 : read_length (mkGetResponse err vb) 9 = .ok (11 + vb.length, 10) := by
    simp [read_length, byteAt, mkGetResponse, hb2]
  have e7 : skip_tlv (mkGetResponse err vb) 10 = .ok 13 := by
    simp [skip_tlv, read_tag, read_length, byteAt, mkGetResponse]
  have e8 : read_tlv_value (mkGetResponse err vb) 13 = .ok (2, [err], 16) := by
    simp [read_tlv_value, read_tag, read_length, byteAt, sliceAt, mkGetResponse]
  have e9 : skip_tlv (mkGetResponse err vb) 16 = .ok 19 := by
    simp [skip_tlv, read_tag, read_length, byteAt, mkGetResponse]
  have e10 : read_tag (mkGetResponse err vb) 19 = .ok 48 := by
    simp [read_tag, byteAt, mkGetResponse]
  have e11 : read_length (mkGetResponse err vb) 20 = .ok (vb.length, 21) := by
    simp [read_length, byteAt, mkGetResponse, hb3]
  have hlen2 : ¬ (mkGetResponse err vb).length < 2 := by
    simp [mkGetResponse]
  rw [parse_snmp_response, if_neg hlen2, e1]
  simp only [e2, e3, e4, e5, e6, e7, e8, e9, e10, e11]
  norm_num

/-- Claim C7: a well-formed GetResponse with non-zero one-byte error-status
`err` fails to decode, with an error carrying the numeric code and its name
(`tooBig` for 1 through `wrongType` for 7, `unknown` otherwise); the
VarBindList is decoded only when the error-status is zero (the parser
reaches the varbind loop exactly in that case, and on a sample response it
returns the decoded varbind). -/
theorem C7_error_status_named (err : Nat) (herr : err < 256) (hne : err ≠ 0) :
    (∀ vb : List Nat, vb.length ≤ 100 →
      parse_snmp_response (mkGetResponse err vb) =
        .error (.decode ("SNMP error-status: " ++ toString err ++ " (" ++
          snmpErrorName err ++ ")"))) ∧
    snmpErrorName 1 = "tooBig" ∧ snmpErrorName 2 = "noSuchName" ∧
    snmpErrorName 3 = "badValue" ∧ snmpErrorName 4 = "readOnly" ∧
    snmpErrorName 5 = "genErr" ∧ snmpErrorName 6 = "noAccess" ∧
    snmpErrorName 7 = "wrongType" ∧
    (¬(1 ≤ err ∧ err ≤ 7) → snmpErrorName err = "unknown") ∧
    (∀ vb : List Nat, vb.length ≤ 100 →
      parse_snmp_response (mkGetResponse 0 vb) =
        varbindLoop (mkGetResponse 0 vb) (21 + vb.length) 21 []) ∧
    parse_snmp_response (mkGetResponse 0 sampleVb) =
      .ok [([1, 3, 6, 1, 2, 1, 1, 5, 0], [65, 66])] := by
  refine ⟨?_, rfl, rfl, rfl, rfl, rfl, rfl, rfl, ?_, ?_, ?_⟩
  · intro vb hvb
    rw [parse_mkGetResponse err vb hvb, if_pos hne]
    rfl
  · intro hrange
    unfold snmpErrorName
    rw [if_neg (by omega), if_neg (by omega), if_neg (by omega), if_neg (by omega),
      if_neg (by omega), if_neg (by omega), if_neg (by omega)]
  · intro vb hvb
    rw [parse_mkGetResponse 0 vb hvb]
    simp
  · rw [parse_mkGetResponse 0 sampleVb (by simp [sampleVb])]
    simp only [ne_eq, not_true_eq_false, if_false, reduceIte]
    simp [varbindLoop, read_tag, read_length, read_tlv_value, byteAt, sliceAt,
      decode_oid, decodeArcs, decodeArcComp, mkGetResponse, sampleVb]

/-- Witness for C7 at error-status 2 (`noSuchName`). -/
theorem C7_error_status_named_witness :
    parse_snmp_response (mkGetResponse 2 sampleVb) =
      .error (.decode ("SNMP error-status: " ++ toString 2 ++ " (" ++
        snmpErrorName 2 ++ ")")) :=
  (C7_error_status_named 2 (by decide) (by decide)).1 sampleVb (by simp [sampleVb])
